import Mathlib

/-!
Verification development for the crawlspace sensor sketch
(`crawlspace.ino`): a fixed pipeline of measurement steps sharing one
mutable measurement record, run by an Arduino-style `loop` that advances
on success and jumps to the deep-sleep step on failure.

The C code is shallowly embedded: machine integers become `Nat`/`Int`
with explicit reductions modulo `2 ^ w` where the C type forces wrap,
each `step_*` function becomes a Lean function from an environment of
collaborator behaviours and the current measurement to the updated
measurement, a success flag and a list of externally observable events,
and the `loop`/`steps[]` driver becomes `runFrom`/`runCycle`.
-/

set_option maxRecDepth 4000

namespace Crawlspace

/-- `#define PERIOD 60` — the measurement period in seconds. -/
def PERIOD : Nat := 60

/-- `#define NTP_TIMEOUT 3000` — SNTP response timeout in milliseconds. -/
def NTP_TIMEOUT : Nat := 3000

/-- The `meas_t` record: `char id[8]; uint32_t time; int humidity;
int temperature; uint16_t range;`.  The C string becomes a Lean
`String`; the integer fields are kept as `Nat`/`Int`, with the
`uint32_t`/`uint16_t` truncation applied at each write site. -/
structure Meas where
  id : String
  time : Nat
  humidity : Int
  temperature : Int
  range : Nat
deriving DecidableEq, Repr

/-- Externally observable events of one cycle: a table step being
invoked by `loop` (`Ev.run i`), an actual MQTT publish
(`mqttClient.publish`, `Ev.pub payload`), and the suspension request
`ESP.deepSleep` with its duration in seconds (`Ev.suspend s`). -/
inductive Ev where
  | run (i : Nat)
  | pub (payload : String)
  | suspend (seconds : Nat)
deriving DecidableEq, Repr

/-- Behaviour of the external collaborators (hardware and network) that
the steps call: chip id, WiFi join outcome, availability over time and
payload bytes of the SNTP response, the lidar range reading, the MQTT
connection state, and the climate sensor of the spec's collaborator
interface (which the current code does not consult). -/
structure Env where
  chipId : Nat := 0
  wifiOk : Bool := true
  sntpAvail : Nat → Bool := fun _ => true
  b40 : Nat := 0
  b41 : Nat := 0
  b42 : Nat := 0
  b43 : Nat := 0
  lidarRange : Nat := 0
  mqttConnected : Bool := false
  mqttConnectOk : Bool := true
  climateOk : Bool := true
  climateHum : Int := 0
  climateTemp : Int := 0

/-- Uppercase hexadecimal digit, as produced by `printf %X`. -/
def hexDigit (d : Nat) : Char :=
  match d with
  | 0 => '0' | 1 => '1' | 2 => '2' | 3 => '3' | 4 => '4' | 5 => '5'
  | 6 => '6' | 7 => '7' | 8 => '8' | 9 => '9' | 10 => 'A' | 11 => 'B'
  | 12 => 'C' | 13 => 'D' | 14 => 'E' | _ => 'F'

/-- Hexadecimal digit string of `n`, most significant digit first; the
fuel argument bounds the recursion depth and any `fuel ≥` number of
digits gives the exact `printf %X` output. -/
def hexChars : Nat → Nat → List Char
  | 0, _ => []
  | fuel + 1, n => if n < 16 then [hexDigit n] else hexChars fuel (n / 16) ++ [hexDigit (n % 16)]

/-- `sprintf(meas->id, "%06X", ESP.getChipId())`: uppercase hex,
zero-padded on the left to at least six characters. -/
def chipIdStr (n : Nat) : String :=
  let ds := hexChars 20 n
  ⟨List.replicate (6 - ds.length) '0' ++ ds⟩

/-- Decimal digit character, as produced by `printf`. -/
def digitChar (d : Nat) : Char :=
  match d with
  | 0 => '0' | 1 => '1' | 2 => '2' | 3 => '3' | 4 => '4'
  | 5 => '5' | 6 => '6' | 7 => '7' | 8 => '8' | _ => '9'

/-- Decimal digit list of `n`, most significant first; fuel `20` covers
every value a C `uint32_t`/`int` can hold. -/
def natChars : Nat → Nat → List Char
  | 0, _ => []
  | fuel + 1, n => if n < 10 then [digitChar n] else natChars fuel (n / 10) ++ [digitChar (n % 10)]

/-- Decimal rendering of an unsigned value (`printf %u`). -/
def natStr (n : Nat) : String := ⟨natChars 20 n⟩

/-- Decimal rendering of a signed value (`printf %d`). -/
def intStr (i : Int) : String :=
  if i < 0 then "-" ++ natStr i.natAbs else natStr i.toNat

/-- The `snprintf` format of `step_publish_mqtt`: the flat JSON object
with fields `id`, `time`, `humidity`, `temperature`, `range`. -/
def serialize (m : Meas) : String :=
  "\x7b\"id\":\"" ++ m.id ++ "\",\"time\":" ++ natStr m.time ++
    ",\"humidity\":" ++ intStr m.humidity ++ ",\"temperature\":" ++ intStr m.temperature ++
    ",\"range\":" ++ natStr m.range ++ "\x7d"

/-- A step of the pipeline: measurement in, updated measurement,
success flag and emitted events out. -/
abbrev StepFn := Env → Meas → Meas × Bool × List Ev

/-- `step_connect_wifi`: writes the chip id into `meas->id` (before the
join is attempted), then reports the outcome of
`wifiManager.autoConnect`. -/
def step_connect_wifi : StepFn := fun env m =>
  ({ m with id := chipIdStr env.chipId }, env.wifiOk, [])

/-- The SNTP wait loop of `step_request_sntp`: poll
`udp.parsePacket()`; on no packet, give up once more than
`NTP_TIMEOUT` milliseconds have elapsed, otherwise `delay(10)` and poll
again.  Returns the elapsed time at which a packet arrived, or `none`
on timeout.  The structural `fuel` argument only bounds the recursion;
the deadline check fires strictly before any fuel of at least
`NTP_TIMEOUT / 10 + 2` can run out, so from `elapsed = 0` the
fuel-exhaustion branch is unreachable. -/
def sntpWaitFuel (avail : Nat → Bool) : Nat → Nat → Option Nat
  | 0, _ => none
  | fuel + 1, elapsed =>
    if avail elapsed then some elapsed
    else if elapsed > NTP_TIMEOUT then none
    else sntpWaitFuel avail fuel (elapsed + 10)

/-- The wait loop as the C code runs it, starting with zero elapsed
milliseconds. -/
def sntpWait (avail : Nat → Bool) (elapsed : Nat) : Option Nat :=
  sntpWaitFuel avail (NTP_TIMEOUT + 11) elapsed

/-- `word(buf[40], buf[41])` — a 16-bit word from two received bytes
(`uint8_t`, hence the reduction modulo 256). -/
def word16 (hi lo : Nat) : Nat := (hi % 256) * 256 + (lo % 256)

/-- Decoding of the SNTP response: `secsSince1900 = highWord << 16 |
lowWord`, then `meas->time = secsSince1900 - 2208988800UL` in 32-bit
unsigned arithmetic. -/
def sntpDecode (env : Env) : Nat :=
  let highWord := word16 env.b40 env.b41
  let lowWord := word16 env.b42 env.b43
  let secsSince1900 := highWord * 65536 + lowWord
  (secsSince1900 + 2 ^ 32 - 2208988800) % 2 ^ 32

/-- `step_request_sntp`: wait for a response; on timeout return failure
with the measurement untouched, otherwise store the decoded epoch time
and succeed. -/
def step_request_sntp : StepFn := fun env m =>
  match sntpWait env.sntpAvail 0 with
  | none => (m, false, [])
  | some _ => ({ m with time := sntpDecode env }, true, [])

/-- `step_prepare_lidar`: configures the sensor timing budget, touches
no measurement field, always succeeds. -/
def step_prepare_lidar : StepFn := fun _ m => (m, true, [])

/-- `step_measure_range`: stores `lidar.readRangeSingleMillimeters()`
(a `uint16_t`) into `meas->range` and always succeeds. -/
def step_measure_range : StepFn := fun env m =>
  ({ m with range := env.lidarRange % 65536 }, true, [])

/-- `step_measure_temp_hum` as written in the source: a `TODO` stub
that sets `meas->humidity = 0; meas->temperature = 0;` and returns
`true` unconditionally, never consulting any climate sensor. -/
def step_measure_temp_hum : StepFn := fun _ m =>
  ({ m with humidity := 0, temperature := 0 }, true, [])

/-- `step_publish_mqtt`: serialize the measurement; if the client is
not connected, reconnect lazily; publish and succeed exactly when the
client ends up connected. -/
def step_publish_mqtt : StepFn := fun env m =>
  let connected := env.mqttConnected || env.mqttConnectOk
  if connected then (m, true, [Ev.pub (serialize m)]) else (m, false, [])

/-- The sleep duration computed by `step_deep_sleep`:
`seconds = PERIOD - (meas->time % PERIOD)`. -/
def sleepSeconds (m : Meas) : Nat := PERIOD - m.time % PERIOD

/-- `step_deep_sleep`: powers down the lidar and calls
`ESP.deepSleep(1000000UL * seconds)`, which suspends execution and
never returns; its observable effect is the single suspend event. -/
def step_deep_sleep (m : Meas) : List Ev := [Ev.suspend (sleepSeconds m)]

/-- The `steps[]` table up to (excluding) the terminal deep-sleep
entry, in source order. -/
def stepsList : List StepFn :=
  [step_connect_wifi, step_request_sntp, step_prepare_lidar,
   step_measure_range, step_measure_temp_hum, step_publish_mqtt]

/-- `memset(&measurement, 0, sizeof(measurement))` in `setup`: the
zero-initialized measurement record. -/
def initMeas : Meas := { id := "", time := 0, humidity := 0, temperature := 0, range := 0 }

/-- The `loop` driver from table position `i`: invoke the current step;
on success advance, on failure call `step_deep_sleep` directly; when
the cursor reaches the terminal table entry, the deep-sleep step runs
and execution is suspended (on the device `ESP.deepSleep` does not
return). -/
def runFrom (env : Env) : List StepFn → Nat → Meas → Meas × List Ev
  | [], i, m => (m, Ev.run i :: step_deep_sleep m)
  | f :: rest, i, m =>
    match f env m with
    | (m', true, evs) =>
      let r := runFrom env rest (i + 1) m'
      (r.1, (Ev.run i :: evs) ++ r.2)
    | (m', false, evs) =>
      (m', (Ev.run i :: evs) ++ step_deep_sleep m')

/-- One full measurement cycle: `setup` zero-initializes the record and
resets the cursor, then `loop` runs the table from index 0. -/
def runCycle (env : Env) : Meas × List Ev := runFrom env stepsList 0 initMeas

/-- The events observed during one cycle under collaborator behaviour
`env`. -/
def cycleTrace (env : Env) : List Ev := (runCycle env).2

/-- Index of the first step to report failure, walking the table the
way `loop` does; `none` when every table step succeeds. -/
def firstFailAux (env : Env) : List StepFn → Nat → Meas → Option Nat
  | [], _, _ => none
  | f :: rest, i, m =>
    match f env m with
    | (m', true, _) => firstFailAux env rest (i + 1) m'
    | (_, false, _) => some i

/-- Index of the first failing step of the cycle, if any. -/
def firstFail (env : Env) : Option Nat := firstFailAux env stepsList 0 initMeas

/-- Indices of the table steps invoked in a trace. -/
def runIdxs (tr : List Ev) : List Nat :=
  tr.filterMap fun e => match e with | Ev.run i => some i | _ => none

/-- Number of suspension requests (`ESP.deepSleep` calls) in a trace. -/
def suspendCount (tr : List Ev) : Nat :=
  (tr.filter fun e => match e with | Ev.suspend _ => true | _ => false).length

/-- Number of MQTT publishes in a trace. -/
def pubCount (tr : List Ev) : Nat :=
  (tr.filter fun e => match e with | Ev.pub _ => true | _ => false).length

/-- Strip an expected literal prefix from a character list, returning
the remainder, or `none` when the input does not start with it. -/
def dropLit : List Char → List Char → Option (List Char)
  | [], s => some s
  | _ :: _, [] => none
  | c :: cs, d :: ds => if c = d then dropLit cs ds else none

/-- Split a character list at the first character refuting `p`. -/
def spanP (p : Char → Bool) : List Char → List Char × List Char
  | [] => ([], [])
  | c :: cs => if p c then ((spanP p cs).1.cons c, (spanP p cs).2) else ([], c :: cs)

/-- Value of a decimal digit string, most significant digit first. -/
def digitsVal (l : List Char) : Nat :=
  l.foldl (fun a c => 10 * a + (c.toNat - 48)) 0

/-- Parse an optionally `-`-signed decimal integer, returning the value
and the remaining characters. -/
def readInt (l : List Char) : Int × List Char :=
  match l with
  | '-' :: rest => (-(digitsVal (spanP Char.isDigit rest).1 : Int), (spanP Char.isDigit rest).2)
  | _ => ((digitsVal (spanP Char.isDigit l).1 : Int), (spanP Char.isDigit l).2)

/-- Modelled from the spec: the repository contains no JSON reader, but
the spec's serialization round-trip property requires "parsing that
JSON back"; this parser reads exactly the flat object layout of the
publish payload described in the spec — fields `id` (string), `time`,
`humidity`, `temperature`, `range` (integers), in that order. -/
def parseMeas (s : String) : Option Meas := do
  let r ← dropLit "\x7b\"id\":\"".data s.data
  let (idc, r) := spanP (fun c => c != '"') r
  let r ← dropLit "\",\"time\":".data r
  let (tc, r) := spanP Char.isDigit r
  let r ← dropLit ",\"humidity\":".data r
  let (h, r) := readInt r
  let r ← dropLit ",\"temperature\":".data r
  let (tp, r) := readInt r
  let r ← dropLit ",\"range\":".data r
  let (rc, r) := spanP Char.isDigit r
  let _ ← dropLit "\x7d".data r
  some { id := ⟨idc⟩, time := digitsVal tc, humidity := h, temperature := tp, range := digitsVal rc }

/-! ### Decimal digit and parsing helper lemmas -/

theorem digitChar_isDigit (d : Nat) : (digitChar d).isDigit = true := by
  unfold digitChar
  split <;> decide

theorem digitChar_val (d : Nat) (h : d < 10) : (digitChar d).toNat - 48 = d := by
  interval_cases d <;> decide

theorem natChars_isDigit : ∀ fuel n c, c ∈ natChars fuel n → c.isDigit = true := by
  intro fuel
  induction fuel with
  | zero => intro n c hc; simp [natChars] at hc
  | succ fuel ih =>
    intro n c hc
    rw [natChars] at hc
    by_cases hn : n < 10
    · simp [hn] at hc
      subst hc
      exact digitChar_isDigit n
    · simp [hn, List.mem_append] at hc
      rcases hc with hc | hc
      · exact ih _ _ hc
      · subst hc
        exact digitChar_isDigit (n % 10)

theorem digitsVal_append_digit (xs : List Char) (c : Char) :
    digitsVal (xs ++ [c]) = 10 * digitsVal xs + (c.toNat - 48) := by
  simp [digitsVal, List.foldl_append]

theorem natChars_val : ∀ fuel n, n < 10 ^ fuel → digitsVal (natChars fuel n) = n := by
  intro fuel
  induction fuel with
  | zero => intro n hn; interval_cases n; simp [natChars, digitsVal]
  | succ fuel ih =>
    intro n hn
    rw [natChars]
    by_cases h10 : n < 10
    · simp only [h10, if_true]
      have : digitsVal [digitChar n] = (digitChar n).toNat - 48 := by
        simp [digitsVal]
      rw [this, digitChar_val n h10]
    · simp only [h10, if_false]
      have hdiv : n / 10 < 10 ^ fuel := by
        rw [Nat.div_lt_iff_lt_mul (by omega : 0 < 10)]
        calc n < 10 ^ (fuel + 1) := hn
        _ = 10 ^ fuel * 10 := by ring
      rw [digitsVal_append_digit, ih _ hdiv, digitChar_val _ (Nat.mod_lt n (by omega))]
      omega

theorem natChars_ne_nil (fuel n : Nat) (h : fuel ≠ 0) : natChars fuel n ≠ [] := by
  match fuel, h with
  | fuel + 1, _ =>
    rw [natChars]
    by_cases h10 : n < 10
    · simp [h10]
    · simp [h10]

theorem dropLit_append : ∀ p r : List Char, dropLit p (p ++ r) = some r := by
  intro p
  induction p with
  | nil => intro r; rfl
  | cons c cs ih => intro r; simp [dropLit, ih]

theorem spanP_append (p : Char → Bool) :
    ∀ (xs : List Char) (y : Char) (rest : List Char), (∀ c ∈ xs, p c = true) → p y = false →
      spanP p (xs ++ y :: rest) = (xs, y :: rest) := by
  intro xs
  induction xs with
  | nil => intro y rest _ hy; simp [spanP, hy]
  | cons c cs ih =>
    intro y rest hall hy
    have hc : p c = true := hall c (by simp)
    simp only [List.cons_append, spanP, hc, if_true]
    rw [show cs.append (y :: rest) = cs ++ y :: rest from rfl,
      ih y rest (fun d hd => hall d (by simp [hd])) hy]

theorem readInt_neg (l : List Char) :
    readInt ('-' :: l) =
      (-(digitsVal (spanP Char.isDigit l).1 : Int), (spanP Char.isDigit l).2) := rfl

theorem readInt_pos (c : Char) (cs : List Char) (h : c ≠ '-') :
    readInt (c :: cs) =
      ((digitsVal (spanP Char.isDigit (c :: cs)).1 : Int), (spanP Char.isDigit (c :: cs)).2) := by
  unfold readInt
  split
  · next heq => simp at heq; exact absurd heq.1 h
  · rfl

theorem natStr_data (n : Nat) : (natStr n).data = natChars 20 n := rfl

theorem intStr_data_neg (i : Int) (h : i < 0) :
    (intStr i).data = '-' :: natChars 20 i.natAbs := by
  rw [intStr, if_pos h]
  simp [String.data_append, natStr_data]

theorem intStr_data_nonneg (i : Int) (h : ¬ i < 0) :
    (intStr i).data = natChars 20 i.toNat := by
  rw [intStr, if_neg h, natStr_data]

theorem spanP_digits (n : Nat) (y : Char) (rest : List Char) (hy : y.isDigit = false) :
    spanP Char.isDigit (natChars 20 n ++ y :: rest) = (natChars 20 n, y :: rest) :=
  spanP_append Char.isDigit _ y rest (fun c hc => natChars_isDigit 20 n c hc) hy

theorem readInt_intStr (i : Int) (y : Char) (rest : List Char)
    (hb : i.natAbs < 10 ^ 20) (hy : y.isDigit = false) :
    readInt ((intStr i).data ++ y :: rest) = (i, y :: rest) := by
  by_cases hneg : i < 0
  · rw [intStr_data_neg i hneg, List.cons_append, readInt_neg, spanP_digits _ y rest hy]
    have hv : digitsVal (natChars 20 i.natAbs) = i.natAbs := natChars_val 20 _ hb
    rw [hv]
    simp only [Prod.mk.injEq]
    exact ⟨by omega, trivial⟩
  · have hdata := intStr_data_nonneg i hneg
    have hb' : i.toNat < 10 ^ 20 := by omega
    rcases hne : natChars 20 i.toNat with _ | ⟨c, cs⟩
    · exact absurd hne (natChars_ne_nil 20 _ (by omega))
    · have hcd : c.isDigit = true := natChars_isDigit 20 _ c (by rw [hne]; simp)
      have hcne : c ≠ '-' := by intro hc; rw [hc] at hcd; exact absurd hcd (by decide)
      rw [hdata, hne, List.cons_append, readInt_pos c _ hcne, ← List.cons_append, ← hne,
        spanP_digits _ y rest hy, natChars_val 20 _ hb']
      simp only [Prod.mk.injEq]
      exact ⟨by omega, trivial⟩

/-- Serialize-then-parse identity for every measurement whose `id` is
quote-free and whose numeric fields fit the C types of `meas_t`. -/
theorem parseMeas_serialize (m : Meas) (hid : ∀ c ∈ m.id.data, c ≠ '"')
    (ht : m.time < 2 ^ 32) (hh : m.humidity.natAbs ≤ 2 ^ 31)
    (htc : m.temperature.natAbs ≤ 2 ^ 31) (hr : m.range < 2 ^ 16) :
    parseMeas (serialize m) = some m := by
  have ht20 : m.time < 10 ^ 20 := by omega
  have hr20 : m.range < 10 ^ 20 := by omega
  have hh20 : m.humidity.natAbs < 10 ^ 20 := by omega
  have htc20 : m.temperature.natAbs < 10 ^ 20 := by omega
  have hidq : ∀ c ∈ m.id.data, (c != '"') = true := by
    intro c hc; simpa using hid c hc
  rw [parseMeas, serialize]
  simp only [String.data_append, natStr_data, List.append_assoc, List.cons_append,
    List.nil_append]
  simp only [dropLit, if_pos, Option.bind_eq_bind, Option.some_bind, reduceIte]
  rw [spanP_append _ m.id.data '"' _ hidq rfl]
  simp only [dropLit, Option.some_bind, reduceIte, List.nil_append]
  rw [spanP_digits m.time ',' _ (by decide)]
  simp only [dropLit, Option.some_bind, reduceIte]
  rw [readInt_intStr m.humidity ',' _ hh20 (by decide)]
  simp only [dropLit, Option.some_bind, reduceIte]
  rw [readInt_intStr m.temperature ',' _ htc20 (by decide)]
  simp only [dropLit, Option.some_bind, reduceIte]
  rw [spanP_digits m.range '\x7d' _ (by decide)]
  simp only [dropLit, Option.some_bind, reduceIte]
  rw [natChars_val 20 m.time ht20, natChars_val 20 m.range hr20]

/-! ### Structure of the cycle runner's trace -/

/-- A step whose own event emissions are only publishes (no table-run
or suspend events) — true of every entry of `stepsList`. -/
def CleanStep (f : StepFn) : Prop :=
  ∀ env m e, e ∈ (f env m).2.2 → ∃ p, e = Ev.pub p

theorem stepsList_clean : ∀ f ∈ stepsList, CleanStep f := by
  intro f hf
  simp only [stepsList, List.mem_cons, List.not_mem_nil, or_false] at hf
  rcases hf with h | h | h | h | h | h <;> subst h <;> intro env m e he
  · simp [step_connect_wifi] at he
  · rw [step_request_sntp] at he
    rcases h0 : sntpWait env.sntpAvail 0 with _ | t <;> rw [h0] at he <;> simp at he
  · simp [step_prepare_lidar] at he
  · simp [step_measure_range] at he
  · simp [step_measure_temp_hum] at he
  · rw [step_publish_mqtt] at he
    by_cases hc : (env.mqttConnected || env.mqttConnectOk) = true
    · simp [hc] at he
      exact ⟨serialize m, he⟩
    · simp [hc] at he

theorem runIdxs_cons_run (i : Nat) (tr : List Ev) :
    runIdxs (Ev.run i :: tr) = i :: runIdxs tr := by
  simp [runIdxs]

theorem runIdxs_append (a b : List Ev) : runIdxs (a ++ b) = runIdxs a ++ runIdxs b := by
  simp [runIdxs]

theorem suspendCount_append (a b : List Ev) :
    suspendCount (a ++ b) = suspendCount a + suspendCount b := by
  simp [suspendCount]

theorem clean_evs (evs : List Ev) (h : ∀ e ∈ evs, ∃ p, e = Ev.pub p) :
    runIdxs evs = [] ∧ suspendCount evs = 0 := by
  induction evs with
  | nil => exact ⟨rfl, rfl⟩
  | cons e tl ih =>
    obtain ⟨p, hp⟩ := h e (by simp)
    subst hp
    obtain ⟨h1, h2⟩ := ih fun e he => h e (by simp [he])
    constructor
    · simpa [runIdxs] using h1
    · simpa [suspendCount] using h2

theorem run_mem_iff_mem_runIdxs (j : Nat) (tr : List Ev) :
    Ev.run j ∈ tr ↔ j ∈ runIdxs tr := by
  constructor
  · intro h
    simp only [runIdxs, List.mem_filterMap]
    exact ⟨Ev.run j, h, rfl⟩
  · intro h
    simp only [runIdxs, List.mem_filterMap] at h
    obtain ⟨e, he, hej⟩ := h
    rcases e with i | p | s <;> simp at hej
    · subst hej; exact he

theorem runFrom_struct (env : Env) :
    ∀ L : List StepFn, (∀ f ∈ L, CleanStep f) → ∀ (i : Nat) (m : Meas),
      suspendCount (runFrom env L i m).2 = 1
      ∧ (∀ s, Ev.suspend s ∈ (runFrom env L i m).2 → ∃ m', s = sleepSeconds m')
      ∧ ((∃ k, firstFailAux env L i m = some k ∧ i ≤ k ∧ k ≤ i + L.length
            ∧ runIdxs (runFrom env L i m).2 = List.range' i (k + 1 - i))
         ∨ (firstFailAux env L i m = none
            ∧ runIdxs (runFrom env L i m).2 = List.range' i (L.length + 1))) := by
  intro L
  induction L with
  | nil =>
    intro _ i m
    refine ⟨by simp [runFrom, step_deep_sleep, suspendCount], ?_, Or.inr ⟨rfl, ?_⟩⟩
    · intro s hs
      simp [runFrom, step_deep_sleep] at hs
      exact ⟨m, hs⟩
    · simp [runFrom, step_deep_sleep, runIdxs, List.range']
  | cons f L ih =>
    intro hclean i m
    have hf : CleanStep f := hclean f (by simp)
    have hrest : ∀ g ∈ L, CleanStep g := fun g hg => hclean g (by simp [hg])
    rcases hfm : f env m with ⟨m', ok, evs⟩
    have hfe : ∀ e ∈ evs, ∃ p, e = Ev.pub p := fun e he => hf env m e (by rw [hfm]; exact he)
    obtain ⟨hevs1, hevs2⟩ := clean_evs evs hfe
    cases ok with
    | true =>
      obtain ⟨ih1, ih2, ih3⟩ := ih hrest (i + 1) m'
      have hrun : (runFrom env (f :: L) i m).2 =
          (Ev.run i :: evs) ++ (runFrom env L (i + 1) m').2 := by
        rw [runFrom, hfm]
      have hff : firstFailAux env (f :: L) i m = firstFailAux env L (i + 1) m' := by
        rw [firstFailAux, hfm]
      refine ⟨?_, ?_, ?_⟩
      · rw [hrun, suspendCount_append]
        have : suspendCount (Ev.run i :: evs) = suspendCount evs := by simp [suspendCount]
        rw [this, hevs2, ih1]
      · intro s hs
        rw [hrun] at hs
        rcases List.mem_append.mp hs with hs | hs
        · rcases List.mem_cons.mp hs with hs | hs
          · simp at hs
          · obtain ⟨p, hp⟩ := hfe _ hs
            simp at hp
        · exact ih2 s hs
      · have hidx : runIdxs (runFrom env (f :: L) i m).2 =
            i :: runIdxs (runFrom env L (i + 1) m').2 := by
          rw [hrun, runIdxs_append, runIdxs_cons_run, hevs1]
          rfl
        rcases ih3 with ⟨k, hk, hik, hkb, hkr⟩ | ⟨hn, hnr⟩
        · refine Or.inl ⟨k, by rw [hff]; exact hk, by omega, by simp; omega, ?_⟩
          rw [hidx, hkr]
          have h1 : k + 1 - i = (k - i) + 1 := by omega
          have h2 : k + 1 - (i + 1) = k - i := by omega
          rw [h1, h2, List.range'_succ i (k - i) 1]
        · refine Or.inr ⟨by rw [hff]; exact hn, ?_⟩
          rw [hidx, hnr]
          have h1 : (f :: L).length + 1 = (L.length + 1) + 1 := by simp
          rw [h1, List.range'_succ i (L.length + 1) 1]
    | false =>
      have hrun : (runFrom env (f :: L) i m).2 =
          (Ev.run i :: evs) ++ step_deep_sleep m' := by
        rw [runFrom, hfm]
      have hff : firstFailAux env (f :: L) i m = some i := by
        rw [firstFailAux, hfm]
      refine ⟨?_, ?_, ?_⟩
      · rw [hrun, suspendCount_append]
        have h1 : suspendCount (Ev.run i :: evs) = suspendCount evs := by simp [suspendCount]
        rw [h1, hevs2]
        simp [step_deep_sleep, suspendCount]
      · intro s hs
        rw [hrun] at hs
        rcases List.mem_append.mp hs with hs | hs
        · rcases List.mem_cons.mp hs with hs | hs
          · simp at hs
          · obtain ⟨p, hp⟩ := hfe _ hs
            simp at hp
        · simp [step_deep_sleep] at hs
          exact ⟨m', hs⟩
      · refine Or.inl ⟨i, hff, le_refl i, by simp, ?_⟩
        rw [hrun, runIdxs_append, runIdxs_cons_run, hevs1]
        simp [step_deep_sleep, runIdxs, List.range']

/-- The trace of a whole cycle: one suspension, every suspension
duration of the form `sleepSeconds`, and the invoked table indices are
exactly `0..k` for the first failing index `k` (all of `0..6` when
every step succeeds). -/
theorem cycle_struct (env : Env) :
    suspendCount (cycleTrace env) = 1
    ∧ (∀ s, Ev.suspend s ∈ cycleTrace env → ∃ m', s = sleepSeconds m')
    ∧ ((∃ k, firstFail env = some k ∧ k ≤ 6
          ∧ runIdxs (cycleTrace env) = List.range' 0 (k + 1))
       ∨ (firstFail env = none ∧ runIdxs (cycleTrace env) = List.range' 0 7)) := by
  obtain ⟨h1, h2, h3⟩ := runFrom_struct env stepsList stepsList_clean 0 initMeas
  refine ⟨h1, h2, ?_⟩
  rcases h3 with ⟨k, hk, _, hkb, hkr⟩ | ⟨hn, hnr⟩
  · exact Or.inl ⟨k, hk, by simpa [stepsList] using hkb, by simpa using hkr⟩
  · exact Or.inr ⟨hn, by simpa [stepsList] using hnr⟩

theorem cycle_runIdxs_of_fail (env : Env) (k : Nat) (h : firstFail env = some k) :
    runIdxs (cycleTrace env) = List.range' 0 (k + 1) := by
  rcases (cycle_struct env).2.2 with ⟨k', hk', _, hr⟩ | ⟨hn, _⟩
  · rw [h] at hk'
    cases hk'
    exact hr
  · rw [h] at hn
    cases hn

theorem cycle_runIdxs_of_success (env : Env) (h : firstFail env = none) :
    runIdxs (cycleTrace env) = List.range' 0 7 := by
  rcases (cycle_struct env).2.2 with ⟨k', hk', _, _⟩ | ⟨_, hr⟩
  · rw [h] at hk'
    cases hk'
  · exact hr

theorem cycle_runIdxs_nodup (env : Env) : (runIdxs (cycleTrace env)).Nodup := by
  rcases (cycle_struct env).2.2 with ⟨k, _, _, hr⟩ | ⟨_, hr⟩ <;>
    rw [hr] <;> exact List.nodup_range' _ _ 1 (by omega)

/-- The SNTP wait loop gives up (returns `none`) whenever no packet is
available at any poll instant up to just past the timeout. -/
theorem sntpWaitFuel_none_of_timeout (avail : Nat → Bool)
    (h : ∀ e, e ≤ NTP_TIMEOUT + 10 → avail e = false) :
    ∀ n elapsed, elapsed ≤ NTP_TIMEOUT + 10 → sntpWaitFuel avail n elapsed = none := by
  intro n
  induction n with
  | zero => intro e _; rfl
  | succ n ih =>
    intro e h2
    rw [sntpWaitFuel, h e h2]
    by_cases he : e > NTP_TIMEOUT
    · simp [he]
    · simp only [Bool.false_eq_true, if_false, he]
      exact ih (e + 10) (by simp [NTP_TIMEOUT] at he ⊢; omega)

theorem sntpWait_none_of_timeout (avail : Nat → Bool)
    (h : ∀ e, e ≤ NTP_TIMEOUT + 10 → avail e = false) :
    sntpWait avail 0 = none :=
  sntpWaitFuel_none_of_timeout avail h (NTP_TIMEOUT + 11) 0 (by omega)

/-- The time-sync step either fails with the measurement untouched or
succeeds having written only the decoded time. -/
theorem step_request_sntp_cases (env : Env) (m : Meas) :
    step_request_sntp env m = (m, false, [])
    ∨ step_request_sntp env m = ({ m with time := sntpDecode env }, true, []) := by
  rw [step_request_sntp]
  cases sntpWait env.sntpAvail 0
  · exact Or.inl rfl
  · exact Or.inr rfl

/-- The publish step either publishes the serialized measurement and
succeeds or fails; either way the measurement is untouched. -/
theorem step_publish_mqtt_cases (env : Env) (m : Meas) :
    step_publish_mqtt env m = (m, true, [Ev.pub (serialize m)])
    ∨ step_publish_mqtt env m = (m, false, []) := by
  cases hc : env.mqttConnected || env.mqttConnectOk <;> simp [step_publish_mqtt, hc]

/-! ### Concrete fixtures used by witnesses and counterexamples -/

/-- Collaborators that all behave: WiFi joins, an SNTP packet is
available immediately, the MQTT client is already connected. -/
def envAllOk : Env := { mqttConnected := true }

/-- Collaborators with a failing WiFi join and everything else fine. -/
def envWifiFail : Env := { wifiOk := false }

/-- Collaborators whose SNTP source never answers. -/
def envSntpDead : Env := { sntpAvail := fun _ => false }

/-- Collaborators whose climate sensor signals a checksum failure while
reporting the values 45 and 21. -/
def envClimateFail : Env := { climateOk := false, climateHum := 45, climateTemp := 21 }

/-- A zero measurement carrying a given epoch time. -/
def measWithTime (t : Nat) : Meas := { initMeas with time := t }

/-- The measurement of the spec's round-trip example. -/
def measC5 : Meas :=
  { id := "ABC123", time := 1700000000, humidity := 45, temperature := 21, range := 312 }

/-- The exact JSON object of the spec's round-trip example. -/
def jsonC5 : String :=
  "\x7b\"id\":\"ABC123\",\"time\":1700000000,\"humidity\":45,\"temperature\":21,\"range\":312\x7d"

/-! ### The claims -/

/-- C1: for every collaborator behaviour, if step `i` is the step that
reports failure in the cycle, then no table step with a larger index is
invoked, and the deep-sleep suspension happens exactly once in the
cycle. -/
theorem claim_C1_failure_short_circuits (env : Env) (i : Nat) (h : firstFail env = some i) :
    (∀ j, i < j → Ev.run j ∉ cycleTrace env) ∧ suspendCount (cycleTrace env) = 1 := by
  refine ⟨?_, (cycle_struct env).1⟩
  intro j hj hmem
  rw [run_mem_iff_mem_runIdxs, cycle_runIdxs_of_fail env i h, List.mem_range'_1] at hmem
  omega

/-- Witness for C1 at a failing WiFi join: step 0 fails, step 1 never
runs, and there is exactly one suspension. -/
theorem claim_C1_witness :
    (Ev.run 1 ∉ cycleTrace envWifiFail) ∧ suspendCount (cycleTrace envWifiFail) = 1 := by
  have h := claim_C1_failure_short_circuits envWifiFail 0 rfl
  exact ⟨h.1 1 (by omega), h.2⟩

/-- C2: the sleep step's suspension duration is
`PERIOD - (epoch_time mod PERIOD)`; for the configured `PERIOD = 60`,
epoch times 0, 59, 60 and 1700000100 give 60, 1, 60 and 60 seconds. -/
theorem claim_C2_sleep_alignment :
    (∀ m : Meas, step_deep_sleep m = [Ev.suspend (PERIOD - m.time % PERIOD)])
    ∧ step_deep_sleep (measWithTime 0) = [Ev.suspend 60]
    ∧ step_deep_sleep (measWithTime 59) = [Ev.suspend 1]
    ∧ step_deep_sleep (measWithTime 60) = [Ev.suspend 60]
    ∧ step_deep_sleep (measWithTime 1700000100) = [Ev.suspend 60] :=
  ⟨fun _ => rfl, by decide, by decide, by decide, by decide⟩

/-- C3: every cycle suspends exactly once; the publish step is invoked
exactly once when no earlier step failed and not at all when one did;
when the WiFi join fails the whole trace is the failing join followed
by a suspension of a full period (epoch time still 0). -/
theorem claim_C3_publish_suspend_discipline (env : Env) :
    suspendCount (cycleTrace env) = 1
    ∧ (firstFail env = none → (runIdxs (cycleTrace env)).count 5 = 1)
    ∧ (∀ k, firstFail env = some k → 5 ≤ k → (runIdxs (cycleTrace env)).count 5 = 1)
    ∧ (∀ k, firstFail env = some k → k < 5 → Ev.run 5 ∉ cycleTrace env)
    ∧ (env.wifiOk = false → cycleTrace env = [Ev.run 0, Ev.suspend PERIOD]) := by
  refine ⟨(cycle_struct env).1, ?_, ?_, ?_, ?_⟩
  · intro h
    rw [cycle_runIdxs_of_success env h]
    exact List.count_eq_one_of_mem (List.nodup_range' _ _ 1 (by omega))
      (by rw [List.mem_range'_1]; omega)
  · intro k h h5
    rw [cycle_runIdxs_of_fail env k h]
    exact List.count_eq_one_of_mem (List.nodup_range' _ _ 1 (by omega))
      (by rw [List.mem_range'_1]; omega)
  · intro k h h5 hmem
    rw [run_mem_iff_mem_runIdxs, cycle_runIdxs_of_fail env k h, List.mem_range'_1] at hmem
    omega
  · intro h
    simp [cycleTrace, runCycle, stepsList, runFrom, step_connect_wifi, h, step_deep_sleep,
      sleepSeconds, initMeas, PERIOD]

/-- Witness for C3: the failing-join trace, and exactly one publish
invocation in a fully successful cycle. -/
theorem claim_C3_witness :
    cycleTrace envWifiFail = [Ev.run 0, Ev.suspend PERIOD]
    ∧ (runIdxs (cycleTrace envAllOk)).count 5 = 1 := by
  constructor
  · exact (claim_C3_publish_suspend_discipline envWifiFail).2.2.2.2 rfl
  · exact (claim_C3_publish_suspend_discipline envAllOk).2.1 rfl

/-- C4 counterexample: with a climate sensor signalling a checksum
failure and reading 45/21, the climate step still reports success and
stores 0/0 — it neither reads the sensor nor fails when the sensor
does. -/
theorem claim_C4_counterexample :
    (step_measure_temp_hum envClimateFail initMeas).2.1 = true
    ∧ envClimateFail.climateOk = false
    ∧ (step_measure_temp_hum envClimateFail initMeas).1.humidity ≠ envClimateFail.climateHum
    ∧ (step_measure_temp_hum envClimateFail initMeas).1.temperature ≠ envClimateFail.climateTemp :=
  ⟨rfl, rfl, by decide, by decide⟩

/-- C4 amended: the climate step of the source is an unimplemented
stub: it ignores the climate sensor, unconditionally writes humidity 0
and temperature 0, and always reports success. -/
theorem claim_C4_climate_stub (env : Env) (m : Meas) :
    step_measure_temp_hum env m = ({ m with humidity := 0, temperature := 0 }, true, []) := rfl

/-- C5: the example measurement serializes to exactly the spec's JSON
object, that JSON parses back to the same field values, and
serialize-then-parse is the identity for every measurement whose id is
quote-free and whose numbers fit the C field types. -/
theorem claim_C5_serialization_roundtrip :
    serialize measC5 = jsonC5
    ∧ parseMeas jsonC5 = some measC5
    ∧ ∀ m : Meas, (∀ c ∈ m.id.data, c ≠ '"') → m.time < 2 ^ 32 → m.humidity.natAbs ≤ 2 ^ 31 →
        m.temperature.natAbs ≤ 2 ^ 31 → m.range < 2 ^ 16 → parseMeas (serialize m) = some m :=
  ⟨rfl, rfl, fun m h1 h2 h3 h4 h5 => parseMeas_serialize m h1 h2 h3 h4 h5⟩

/-- Witness for C5 at the example measurement. -/
theorem claim_C5_witness : parseMeas (serialize measC5) = some measC5 :=
  claim_C5_serialization_roundtrip.2.2 measC5 (by decide) (by decide) (by decide) (by decide)
    (by decide)

/-- C6: the measurement is zero-initialized at cycle start; each field
is written by its designated step only (id by the join step, time by
the time-sync step, range by the range step, humidity and temperature
by the climate step; prepare, publish and sleep write nothing), and no
table step is invoked more than once per cycle. -/
theorem claim_C6_field_write_discipline :
    initMeas = { id := "", time := 0, humidity := 0, temperature := 0, range := 0 }
    ∧ (∀ env m, step_connect_wifi env m = ({ m with id := chipIdStr env.chipId }, env.wifiOk, []))
    ∧ (∀ env m, step_request_sntp env m = (m, false, [])
        ∨ step_request_sntp env m = ({ m with time := sntpDecode env }, true, []))
    ∧ (∀ env m, step_prepare_lidar env m = (m, true, []))
    ∧ (∀ env m, step_measure_range env m = ({ m with range := env.lidarRange % 65536 }, true, []))
    ∧ (∀ env m, step_measure_temp_hum env m = ({ m with humidity := 0, temperature := 0 }, true, []))
    ∧ (∀ env m, step_publish_mqtt env m = (m, true, [Ev.pub (serialize m)])
        ∨ step_publish_mqtt env m = (m, false, []))
    ∧ (∀ env i, (runIdxs (cycleTrace env)).count i ≤ 1) :=
  ⟨rfl, fun _ _ => rfl, step_request_sntp_cases, fun _ _ => rfl, fun _ _ => rfl, fun _ _ => rfl,
    step_publish_mqtt_cases,
    fun env i => List.nodup_iff_count_le_one.mp (cycle_runIdxs_nodup env) i⟩

/-- C7: running the climate step twice in a row overwrites only
humidity and temperature; id, time and range keep their values from
before the two invocations. -/
theorem claim_C7_climate_idempotent (env1 env2 : Env) (m : Meas) :
    (step_measure_temp_hum env2 (step_measure_temp_hum env1 m).1).1 =
      { m with humidity := 0, temperature := 0 }
    ∧ (step_measure_temp_hum env2 (step_measure_temp_hum env1 m).1).1.id = m.id
    ∧ (step_measure_temp_hum env2 (step_measure_temp_hum env1 m).1).1.time = m.time
    ∧ (step_measure_temp_hum env2 (step_measure_temp_hum env1 m).1).1.range = m.range :=
  ⟨rfl, rfl, rfl, rfl⟩

/-- C8: when the SNTP collaborator never delivers a packet within the
bounded timeout window, the time-sync step returns failure cleanly with
the measurement (in particular its epoch time) unmodified.  The wait
loop itself is total in the embedding: its recursion is bounded by the
`NTP_TIMEOUT` deadline. -/
theorem claim_C8_sntp_timeout_clean (env : Env) (m : Meas)
    (h : ∀ e, e ≤ NTP_TIMEOUT + 10 → env.sntpAvail e = false) :
    step_request_sntp env m = (m, false, []) := by
  rw [step_request_sntp, sntpWait_none_of_timeout env.sntpAvail h]

/-- Witness for C8 with an SNTP source that never answers. -/
theorem claim_C8_witness : step_request_sntp envSntpDead initMeas = (initMeas, false, []) :=
  claim_C8_sntp_timeout_clean envSntpDead initMeas (fun _ _ => rfl)

/-- C9: the join step writes the chip-derived device id for every
collaborator behaviour — also when the join fails — and its outcome is
exactly the join result; hence the step is not atomic: there is a run
that fails yet changes the measurement. -/
theorem claim_C9_device_id_before_join :
    (∀ env m, (step_connect_wifi env m).1.id = chipIdStr env.chipId
      ∧ (step_connect_wifi env m).2.1 = env.wifiOk)
    ∧ (∃ env m, (step_connect_wifi env m).2.1 = false ∧ (step_connect_wifi env m).1 ≠ m) :=
  ⟨fun _ _ => ⟨rfl, rfl⟩, envWifiFail, initMeas, rfl, by decide⟩

/-- C10: the computed sleep duration always lies between 1 and `PERIOD`
seconds inclusive, and every suspension the device requests in any
cycle is in that range. -/
theorem claim_C10_sleep_bounds :
    (∀ m : Meas, 1 ≤ sleepSeconds m ∧ sleepSeconds m ≤ PERIOD)
    ∧ (∀ env s, Ev.suspend s ∈ cycleTrace env → 1 ≤ s ∧ s ≤ PERIOD) := by
  have hb : ∀ m : Meas, 1 ≤ sleepSeconds m ∧ sleepSeconds m ≤ PERIOD := by
    intro m
    have h60 : m.time % PERIOD < PERIOD := Nat.mod_lt m.time (by simp [PERIOD])
    simp only [sleepSeconds, PERIOD] at h60 ⊢
    omega
  refine ⟨hb, fun env s hs => ?_⟩
  obtain ⟨m', rfl⟩ := (cycle_struct env).2.1 s hs
  exact hb m'

/-- Witness for C10 at the failing-join cycle, whose one suspension
requests 60 seconds. -/
theorem claim_C10_witness : Ev.suspend 60 ∈ cycleTrace envWifiFail ∧ 1 ≤ 60 ∧ 60 ≤ PERIOD :=
  ⟨by decide, claim_C10_sleep_bounds.2 envWifiFail 60 (by decide)⟩

end Crawlspace
